import Mathlib

/-!
Verification development for the vue-lit component layer (src/index.ts).

The file has two parts.

Part 1 embeds the reactive dependency tracker that the component layer relies
on.  The tracker itself lives in the external package @vue/reactivity, whose
code is not part of this repository, so the definitions of part 1 are modelled
from the specification (shallow reactive object, track/trigger, computations
that rebuild their dependency set on every run).

Part 2 embeds the component layer itself, translated from src/index.ts:
the process-wide currentInstance pointer, the five lazily allocated lifecycle
callback arrays, createLifecycleMethod, the custom-element constructor with its
render effect, connectedCallback, disconnectedCallback and
attributeChangedCallback, and the argument normalisation of defineComponent.
-/

namespace VueLit

abbrev Key := String
abbrev Value := String
abbrev EffectId := Nat

/-- Association-list lookup: the model of reading a property of a plain
JavaScript object. -/
def lookupKV {α : Type} : List (Key × α) → Key → Option α
  | [], _ => none
  | (k1, v1) :: rest, k => if k1 = k then some v1 else lookupKV rest k

/-- Association-list update: the model of assigning a property of a plain
JavaScript object (overwrite the existing binding, or append a new one). -/
def insertKV {α : Type} : List (Key × α) → Key → α → List (Key × α)
  | [], k, v => [(k, v)]
  | (k1, v1) :: rest, k, v =>
    if k1 = k then (k, v) :: rest else (k1, v1) :: insertKV rest k v

/-- Modelled from the spec: a computation body is re-executed against the
current store on every run and re-discovers the ordered list of keys it reads
(the @vue/reactivity effect internals are not part of this repository). -/
def Body := (Key → Option Value) → List Key

/-- Modelled from the spec: the state of one reactive object - its backing
store together with the dependency map from keys to the computations that
read the key during their last run. -/
structure RSys where
  store : List (Key × Value)
  deps : List (Key × List EffectId)
deriving DecidableEq, Repr

/-- Dependent set stored under a key of a dependency map (empty when the key
was never tracked). -/
def depsD (d : List (Key × List EffectId)) (k : Key) : List EffectId :=
  (lookupKV d k).getD []

/-- Dependent set of a key of a reactive object. -/
def depsOf (s : RSys) (k : Key) : List EffectId :=
  depsD s.deps k

/-- Modelled from the spec: before each run a computation's previous
dependency associations are cleared. -/
def cleanupDeps (d : List (Key × List EffectId)) (e : EffectId) :
    List (Key × List EffectId) :=
  d.map (fun kv => (kv.1, kv.2.filter (fun x => x ≠ e)))

/-- Modelled from the spec: track adds the active computation to the dependent
set of the key just read, never duplicating an already registered dependent. -/
def trackDep (d : List (Key × List EffectId)) (e : EffectId) (k : Key) :
    List (Key × List EffectId) :=
  let cur := (lookupKV d k).getD []
  if e ∈ cur then d else insertKV d k (cur ++ [e])

/-- Modelled from the spec: one run of a computation - clear its previous
dependency set, execute the body against the store, track every key it read. -/
def runEffect (bodies : EffectId → Body) (s : RSys) (e : EffectId) : RSys :=
  let d1 := cleanupDeps s.deps e
  let reads := bodies e (fun k => lookupKV s.store k)
  { s with deps := reads.foldl (fun d k => trackDep d e k) d1 }

/-- Modelled from the spec: trigger snapshots the dependent set of the written
key and synchronously reruns every computation in it, in order.  The second
component is the list of reruns performed, in order. -/
def triggerKey (bodies : EffectId → Body) (s : RSys) (k : Key) :
    RSys × List EffectId :=
  let ds := depsOf s k
  (ds.foldl (fun acc e => runEffect bodies acc e) s, ds)

/-- Modelled from the spec: a reactive write - store the new value, then
trigger the dependents of the written key. -/
def setKey (bodies : EffectId → Body) (s : RSys) (k : Key) (v : Value) :
    RSys × List EffectId :=
  triggerKey bodies { s with store := insertKV s.store k v } k

/-! Lemmas about the association-list primitives. -/

lemma lookupKV_insert_self {α : Type} (l : List (Key × α)) (k : Key) (v : α) :
    lookupKV (insertKV l k v) k = some v := by
  induction l with
  | nil => simp [insertKV, lookupKV]
  | cons a rest ih =>
    obtain ⟨k1, v1⟩ := a
    by_cases h : k1 = k <;> simp [insertKV, lookupKV, h, ih]

lemma lookupKV_insert_ne {α : Type} (l : List (Key × α)) (k k' : Key) (v : α)
    (h : k' ≠ k) : lookupKV (insertKV l k v) k' = lookupKV l k' := by
  induction l with
  | nil => simp [insertKV, lookupKV, Ne.symm h]
  | cons a rest ih =>
    obtain ⟨k1, v1⟩ := a
    by_cases h1 : k1 = k
    · subst h1
      simp [insertKV, lookupKV, Ne.symm h]
    · by_cases h2 : k1 = k' <;> simp [insertKV, lookupKV, h1, h2, h, ih]

lemma lookupKV_cleanup (d : List (Key × List EffectId)) (e : EffectId) (k : Key) :
    lookupKV (cleanupDeps d e) k
      = (lookupKV d k).map (fun l => l.filter (fun x => x ≠ e)) := by
  induction d with
  | nil => rfl
  | cons a rest ih =>
    obtain ⟨k1, l⟩ := a
    by_cases h : k1 = k
    · simp [cleanupDeps, lookupKV, h]
    · simp only [cleanupDeps, List.map_cons, lookupKV, h, if_false]
      simpa [cleanupDeps] using ih

lemma not_mem_depsD_cleanup (d : List (Key × List EffectId)) (e : EffectId)
    (k : Key) : e ∉ depsD (cleanupDeps d e) k := by
  unfold depsD
  rw [lookupKV_cleanup]
  cases lookupKV d k with
  | none => simp
  | some l => simp [List.mem_filter]

lemma depsD_track_self (d : List (Key × List EffectId)) (e : EffectId) (k : Key) :
    depsD (trackDep d e k) k
      = if e ∈ depsD d k then depsD d k else depsD d k ++ [e] := by
  unfold trackDep depsD
  by_cases h : e ∈ (lookupKV d k).getD [] <;>
    simp [h, lookupKV_insert_self]

lemma depsD_track_other (d : List (Key × List EffectId)) (e : EffectId)
    (k k' : Key) (h : k' ≠ k) : depsD (trackDep d e k) k' = depsD d k' := by
  unfold trackDep depsD
  by_cases hm : e ∈ (lookupKV d k).getD [] <;>
    simp [hm, lookupKV_insert_ne _ _ _ _ h]

lemma count_foldl_track (e : EffectId) :
    ∀ (reads : List Key) (d : List (Key × List EffectId)) (k : Key),
      List.count e (depsD (reads.foldl (fun d2 k2 => trackDep d2 e k2) d) k)
        = if k ∈ reads then
            (if e ∈ depsD d k then List.count e (depsD d k) else 1)
          else List.count e (depsD d k) := by
  intro reads
  induction reads with
  | nil => intro d k; simp
  | cons k0 rest ih =>
    intro d k
    rw [List.foldl_cons, ih (trackDep d e k0) k]
    by_cases hk : k = k0
    · subst hk
      rw [depsD_track_self]
      by_cases he : e ∈ depsD d k
      · simp only [if_pos he, List.mem_cons, true_or, if_pos]
        by_cases hr : k ∈ rest <;> simp [hr, he]
      · have hz : List.count e (depsD d k) = 0 :=
          List.count_eq_zero.mpr he
        have hmem : e ∈ depsD d k ++ [e] := by simp
        have hcnt : List.count e (depsD d k ++ [e]) = 1 := by
          simp [List.count_append, hz]
        simp only [if_neg he, List.mem_cons, true_or, if_pos]
        by_cases hr : k ∈ rest <;> simp [hr, hmem, hcnt]
    · rw [depsD_track_other d e k0 k hk]
      simp [List.mem_cons, hk]

lemma count_depsOf_runEffect (bodies : EffectId → Body) (s : RSys)
    (e : EffectId) (k : Key) :
    List.count e (depsOf (runEffect bodies s e) k)
      = if k ∈ bodies e (fun k2 => lookupKV s.store k2) then 1 else 0 := by
  have h0 : e ∉ depsD (cleanupDeps s.deps e) k := not_mem_depsD_cleanup s.deps e k
  have h1 : List.count e (depsD (cleanupDeps s.deps e) k) = 0 :=
    List.count_eq_zero.mpr h0
  show List.count e (depsD ((bodies e (fun k2 => lookupKV s.store k2)).foldl
      (fun d2 k2 => trackDep d2 e k2) (cleanupDeps s.deps e)) k) = _
  rw [count_foldl_track]
  by_cases hk : k ∈ bodies e (fun k2 => lookupKV s.store k2) <;>
    simp [hk, h0, h1]

lemma store_foldl_runEffect (bodies : EffectId → Body) :
    ∀ (ds : List EffectId) (s : RSys),
      (ds.foldl (fun acc e2 => runEffect bodies acc e2) s).store = s.store := by
  intro ds
  induction ds with
  | nil => intro s; rfl
  | cons e rest ih => intro s; rw [List.foldl_cons, ih]; rfl

/-- Claim C3.  A write to a key with no registered dependent stores the value and
triggers no computation; a write to a key that a computation read during its
most recent run triggers exactly one rerun of that computation (the rerun list
counts it once, never zero times, never twice) while still storing the value. -/
theorem c3_track_trigger :
    (∀ (bodies : EffectId → Body) (s : RSys) (k : Key) (v : Value),
      depsOf s k = [] →
      setKey bodies s k v = ({ s with store := insertKV s.store k v }, [])) ∧
    (∀ (bodies : EffectId → Body) (s0 : RSys) (e : EffectId) (k : Key) (v : Value),
      k ∈ bodies e (fun k2 => lookupKV s0.store k2) →
      List.count e (setKey bodies (runEffect bodies s0 e) k v).2 = 1 ∧
      (setKey bodies (runEffect bodies s0 e) k v).1.store
        = insertKV (runEffect bodies s0 e).store k v) := by
  constructor
  · intro bodies s k v h
    have hds : depsOf { s with store := insertKV s.store k v } k = [] := h
    simp [setKey, triggerKey, hds]
  · intro bodies s0 e k v hk
    have hcount : List.count e (depsOf (runEffect bodies s0 e) k) = 1 := by
      rw [count_depsOf_runEffect]; simp [hk]
    constructor
    · have hds : depsOf
          { runEffect bodies s0 e with
              store := insertKV (runEffect bodies s0 e).store k v } k
          = depsOf (runEffect bodies s0 e) k := rfl
      simp only [setKey, triggerKey]
      rw [hds, hcount]
    · simp only [setKey, triggerKey]
      rw [store_foldl_runEffect]

/-- Concrete inputs used by the witnesses of part 1: one computation that
always reads the key k1. -/
def wbodies : EffectId → Body := fun _ => fun _ => ["k1"]

/-- An initially empty reactive object. -/
def rs0 : RSys := { store := [], deps := [] }

/-- Witness for C3 at concrete inputs: key z was never read, so writing it
triggers nothing; computation 0 read k1 on its last run, so writing k1 reruns
it exactly once. -/
theorem c3_track_trigger_witness :
    depsOf rs0 "z" = [] ∧
    setKey wbodies rs0 "z" "1"
      = ({ rs0 with store := insertKV rs0.store "z" "1" }, []) ∧
    "k1" ∈ wbodies 0 (fun k2 => lookupKV rs0.store k2) ∧
    List.count 0 (setKey wbodies (runEffect wbodies rs0 0) "k1" "7").2 = 1 :=
  ⟨rfl, c3_track_trigger.1 wbodies rs0 "z" "1" rfl, by decide,
    (c3_track_trigger.2 wbodies rs0 0 "k1" "7" (by decide)).1⟩

/-- A computation body with a conditional read path: it always reads flag, and
then reads a when flag is yes and b otherwise. -/
def condBody : Body := fun store =>
  "flag" :: (if store "flag" = some "yes" then ["a"] else ["b"])

/-- The environment with the single conditional computation. -/
def condBodies : EffectId → Body := fun _ => condBody

/-- Initial reactive object for the dependency-refresh scenario. -/
def condS0 : RSys := { store := [("flag", "yes")], deps := [] }

/-- State after the first run of the conditional computation (it read flag
and a). -/
def condS1 : RSys := runEffect condBodies condS0 0

/-- State after flipping flag to no, which reran the computation (it now read
flag and b). -/
def condS2 : RSys := (setKey condBodies condS1 "flag" "no").1

/-- Claim C4.  Dependency sets are rebuilt fresh on each run: flipping the flag
reruns the computation once; afterwards writing the no-longer-read key a
triggers nothing, while writing the newly-read key b triggers exactly one
rerun. -/
theorem c4_dependency_refresh :
    (setKey condBodies condS1 "flag" "no").2 = [0] ∧
    (setKey condBodies condS2 "a" "1").2 = [] ∧
    (setKey condBodies condS2 "b" "1").2 = [0] := by
  refine ⟨?_, ?_, ?_⟩ <;> decide

/-! Part 2: the component layer of src/index.ts. -/

abbrev CbId := Nat

/-- The five lifecycle points: beforeMount, beforeUpdate, updated, mounted,
unmounted, named after the instance fields of the source (this._bm, this._bu,
this._u, this._m, this._um). -/
inductive LPoint
  | bm
  | bu
  | u
  | m
  | um
deriving DecidableEq, Repr

/-- A render template body, deep-embedded: given read access to the props
store it yields the ordered list of props keys it reads and the lifecycle
registration calls it attempts while running.  The markup it produces only
matters as the fact that the external render operation was invoked, recorded
as the Ev.render event. -/
def RenderBody := (Key → Option Value) → List Key × List (LPoint × CbId)

/-- A user factory, deep-embedded: the lifecycle registration calls it
performs during its synchronous run, and then either the render body it
returns or none when it throws. -/
structure Factory where
  acts : List (LPoint × CbId)
  result : Option RenderBody

/-- A component instance: the backing store of its shallow-reactive props
object, the five lazily allocated lifecycle callback arrays of the source
class (none models an unallocated array), the has-mounted-once flag of the
constructor closure, and the props keys tracked by the instance's render
computation during its last run. -/
structure Inst where
  _props : List (Key × Value)
  _bm : Option (List CbId)
  _bu : Option (List CbId)
  _u : Option (List CbId)
  _m : Option (List CbId)
  _um : Option (List CbId)
  isMounted : Bool
  deps : List Key
deriving DecidableEq, Repr

/-- Dynamic field read currentInstance[name] of the source. -/
def getField (i : Inst) : LPoint → Option (List CbId)
  | .bm => i._bm
  | .bu => i._bu
  | .u => i._u
  | .m => i._m
  | .um => i._um

/-- Dynamic field write currentInstance[name] = v of the source. -/
def setField (i : Inst) (p : LPoint) (v : Option (List CbId)) : Inst :=
  match p with
  | .bm => { i with _bm := v }
  | .bu => { i with _bu := v }
  | .u => { i with _u := v }
  | .m => { i with _m := v }
  | .um => { i with _um := v }

/-- The callback array for a point, defaulting to empty when unallocated. -/
def getFieldD (i : Inst) (p : LPoint) : List CbId :=
  (getField i p).getD []

/-- The world: the process-wide currentInstance pointer (an index into the
instance list, or none) plus every instance constructed so far. -/
structure World where
  current : Option Nat
  insts : List Inst
deriving DecidableEq, Repr

/-- The environment giving, for every callback identity, the lifecycle
registration calls that callback performs when invoked. -/
def CbEnv := CbId → List (LPoint × CbId)

/-- createLifecycleMethod of the source: push the callback onto
currentInstance[name], allocating the array on first use; with no current
instance, silently do nothing. -/
def registerLifecycle (p : LPoint) (cb : CbId) (w : World) : World :=
  match w.current with
  | none => w
  | some idx =>
    match w.insts.get? idx with
    | none => w
    | some inst =>
      { w with insts := w.insts.set idx (setField inst p (some (getFieldD inst p ++ [cb]))) }

/-- Run a sequence of lifecycle registration calls in order. -/
def runRegs : List (LPoint × CbId) → World → World
  | [], w => w
  | a :: rest, w => runRegs rest (registerLifecycle a.1 a.2 w)

/-- Observable events: a lifecycle callback invoked at a point, or one
invocation of the external render operation. -/
inductive Ev
  | call (p : LPoint) (cb : CbId)
  | render
deriving DecidableEq, Repr

/-- this._X.forEach(cb => cb()) of the source: invoke each callback in order;
the registration calls a callback itself performs go through
registerLifecycle. -/
def fireCbs (env : CbEnv) (p : LPoint) : World → List CbId → World × List Ev
  | w, [] => (w, [])
  | w, cb :: rest =>
    let r := fireCbs env p (runRegs (env cb) w) rest
    (r.1, Ev.call p cb :: r.2)

/-- this._X && this._X.forEach(...) of the source: an unallocated callback
array fires nothing. -/
def fireSite (env : CbEnv) (p : LPoint) (w : World) :
    Option (List CbId) → World × List Ev
  | none => (w, [])
  | some cbs => fireCbs env p w cbs

/-- Replace the instance stored at an index. -/
def updateInst (w : World) (idx : Nat) (f : Inst → Inst) : World :=
  match w.insts.get? idx with
  | none => w
  | some inst => { w with insts := w.insts.set idx (f inst) }

/-- The body of the effect installed by the constructor, from the source:
if not yet mounted fire the beforeUpdate callbacks, render the template into
the shadow root, then either fire the updated callbacks (when already
mounted) or set the mounted flag.  The dependency re-tracking of the
enclosing effect is modelled from the spec: the keys the template read in
this run become the instance's tracked dependency set. -/
def effectRun (env : CbEnv) (idx : Nat) (rb : RenderBody) (w : World) :
    World × List Ev :=
  match w.insts.get? idx with
  | none => (w, [])
  | some inst =>
    let p1 := if inst.isMounted = false
      then fireSite env LPoint.bu w (getField inst LPoint.bu)
      else (w, [])
    let inst1 := (p1.1.insts.get? idx).getD inst
    let out := rb (fun k => lookupKV inst1._props k)
    let w2 := runRegs out.2 (updateInst p1.1 idx (fun i => { i with deps := out.1 }))
    let inst2 := (w2.insts.get? idx).getD inst
    if inst.isMounted then
      let p2 := fireSite env LPoint.u w2 (getField inst2 LPoint.u)
      (p2.1, p1.2 ++ Ev.render :: p2.2)
    else
      (updateInst w2 idx (fun i => { i with isMounted := true }), p1.2 ++ [Ev.render])

/-- The instance state created at the top of the constructor:
this._props = shallowReactive({}), no callback array allocated, not mounted,
nothing tracked. -/
def freshInst : Inst :=
  { _props := [], _bm := none, _bu := none, _u := none, _m := none, _um := none,
    isMounted := false, deps := [] }

/-- The constructor up to and including the factory call, from the source:
append the fresh instance, point currentInstance at it, and run the factory's
registration calls. -/
def factoryPhase (fac : Factory) (w : World) : World :=
  runRegs fac.acts { current := some w.insts.length, insts := w.insts ++ [freshInst] }

/-- The full custom-element constructor, from the source: run the factory
phase; when the factory throws, stop right there (the pointer-clearing line is
never reached) and report no trace.  Otherwise clear currentInstance, fire the
beforeMount callbacks, attach the shadow root, and eagerly run the render
effect. -/
def construct (env : CbEnv) (fac : Factory) (w : World) :
    World × Option (List Ev) :=
  let idx := w.insts.length
  let w3 := factoryPhase fac w
  match fac.result with
  | none => (w3, none)
  | some rb =>
    let w4 : World := { w3 with current := none }
    let instA := (w4.insts.get? idx).getD freshInst
    let p1 := fireSite env LPoint.bm w4 (getField instA LPoint.bm)
    let p2 := effectRun env idx rb p1.1
    (p2.1, some (p1.2 ++ p2.2))

/-- connectedCallback of the source: fire the mounted callbacks. -/
def connectedCallback (env : CbEnv) (idx : Nat) (w : World) : World × List Ev :=
  match w.insts.get? idx with
  | none => (w, [])
  | some inst => fireSite env LPoint.m w (getField inst LPoint.m)

/-- disconnectedCallback of the source: fire the unmounted callbacks. -/
def disconnectedCallback (env : CbEnv) (idx : Nat) (w : World) : World × List Ev :=
  match w.insts.get? idx with
  | none => (w, [])
  | some inst => fireSite env LPoint.um w (getField inst LPoint.um)

/-- attributeChangedCallback of the source: write newValue verbatim into the
props store under the attribute's name (oldValue is taken but never used).
The reactive trigger is modelled from the spec: when the written key is in
the render computation's tracked set, the effect reruns synchronously. -/
def attributeChanged (env : CbEnv) (idx : Nat) (rb : RenderBody) (name : Key)
    (oldValue newValue : Value) (w : World) : World × List Ev :=
  match w.insts.get? idx with
  | none => (w, [])
  | some inst =>
    let w1 := updateInst w idx (fun i => { i with _props := insertKV i._props name newValue })
    if name ∈ inst.deps then effectRun env idx rb w1 else (w1, [])

/-- The argument normalisation of defineComponent, from the source: when the
second argument is already the factory function, use it and observe no
attributes; otherwise the second argument is the attribute list and the third
the factory. -/
def defineComponentArgs (propDefs : List String ⊕ Factory)
    (factory : Option Factory) : List String × Option Factory :=
  match propDefs with
  | Sum.inr f => ([], some f)
  | Sum.inl l => (l, factory)

/-- The effect of one registration call on the instance it targets: the
instance-level part of registerLifecycle. -/
def applyAct (i : Inst) (p : LPoint) (cb : CbId) : Inst :=
  setField i p (some (getFieldD i p ++ [cb]))

/-- The effect of a sequence of registration calls on the targeted instance. -/
def applyActs : List (LPoint × CbId) → Inst → Inst
  | [], i => i
  | a :: rest, i => applyActs rest (applyAct i a.1 a.2)

/-- The registration calls of a sequence that target one lifecycle point, in
order. -/
def groupActs (acts : List (LPoint × CbId)) (p : LPoint) : List CbId :=
  (acts.filter (fun a => a.1 = p)).map (fun a => a.2)

/-- The five lifecycle callback arrays of an instance, bundled. -/
def lifeFields (i : Inst) :
    Option (List CbId) × Option (List CbId) × Option (List CbId) ×
    Option (List CbId) × Option (List CbId) :=
  (i._bm, i._bu, i._u, i._m, i._um)

/-- The props store of the instance stored at an index. -/
def propsAt (w : World) (j : Nat) : Option (List (Key × Value)) :=
  (w.insts.get? j).map Inst._props

/-! Field bookkeeping lemmas. -/

lemma getField_setField_self (i : Inst) (p : LPoint) (v : Option (List CbId)) :
    getField (setField i p v) p = v := by
  cases p <;> rfl

lemma getField_setField_other (i : Inst) (p q : LPoint) (v : Option (List CbId))
    (h : q ≠ p) : getField (setField i p v) q = getField i q := by
  cases p <;> cases q <;> first | rfl | exact absurd rfl h

lemma setField_props (i : Inst) (p : LPoint) (v : Option (List CbId)) :
    (setField i p v)._props = i._props := by
  cases p <;> rfl

lemma setField_isMounted (i : Inst) (p : LPoint) (v : Option (List CbId)) :
    (setField i p v).isMounted = i.isMounted := by
  cases p <;> rfl

lemma setField_deps (i : Inst) (p : LPoint) (v : Option (List CbId)) :
    (setField i p v).deps = i.deps := by
  cases p <;> rfl

lemma applyActs_props (acts : List (LPoint × CbId)) :
    ∀ i : Inst, (applyActs acts i)._props = i._props := by
  induction acts with
  | nil => intro i; rfl
  | cons a rest ih =>
    intro i
    rw [applyActs, ih, applyAct, setField_props]

lemma applyActs_isMounted (acts : List (LPoint × CbId)) :
    ∀ i : Inst, (applyActs acts i).isMounted = i.isMounted := by
  induction acts with
  | nil => intro i; rfl
  | cons a rest ih =>
    intro i
    rw [applyActs, ih, applyAct, setField_isMounted]

lemma applyActs_deps (acts : List (LPoint × CbId)) :
    ∀ i : Inst, (applyActs acts i).deps = i.deps := by
  induction acts with
  | nil => intro i; rfl
  | cons a rest ih =>
    intro i
    rw [applyActs, ih, applyAct, setField_deps]

lemma getFieldD_applyAct_self (i : Inst) (p : LPoint) (cb : CbId) :
    getFieldD (applyAct i p cb) p = getFieldD i p ++ [cb] := by
  unfold getFieldD applyAct
  rw [getField_setField_self]
  rfl

lemma getFieldD_applyAct_other (i : Inst) (p q : LPoint) (cb : CbId)
    (h : q ≠ p) : getFieldD (applyAct i p cb) q = getFieldD i q := by
  unfold getFieldD applyAct
  rw [getField_setField_other i p q _ h]

lemma groupActs_cons (a : LPoint × CbId) (rest : List (LPoint × CbId))
    (p : LPoint) :
    groupActs (a :: rest) p
      = if a.1 = p then a.2 :: groupActs rest p else groupActs rest p := by
  by_cases h : a.1 = p <;> simp [groupActs, List.filter_cons, h]

lemma getFieldD_applyActs (acts : List (LPoint × CbId)) :
    ∀ (i : Inst) (p : LPoint),
      getFieldD (applyActs acts i) p = getFieldD i p ++ groupActs acts p := by
  induction acts with
  | nil => intro i p; simp [applyActs, groupActs]
  | cons a rest ih =>
    intro i p
    rw [applyActs, ih, groupActs_cons]
    by_cases h : a.1 = p
    · subst h
      rw [getFieldD_applyAct_self, if_pos rfl, List.append_assoc,
        List.singleton_append]
    · rw [getFieldD_applyAct_other i a.1 p a.2 (fun hh => h hh.symm), if_neg h]

lemma getFieldD_freshInst (p : LPoint) : getFieldD freshInst p = [] := by
  cases p <;> rfl

/-! currentInstance preservation: nothing but the constructor ever writes the
pointer. -/

lemma registerLifecycle_current (p : LPoint) (cb : CbId) (w : World) :
    (registerLifecycle p cb w).current = w.current := by
  unfold registerLifecycle
  split
  · rfl
  · split <;> rfl

lemma runRegs_current (acts : List (LPoint × CbId)) :
    ∀ w : World, (runRegs acts w).current = w.current := by
  induction acts with
  | nil => intro w; rfl
  | cons a rest ih =>
    intro w
    rw [runRegs, ih, registerLifecycle_current]

lemma fireCbs_current (env : CbEnv) (p : LPoint) :
    ∀ (cbs : List CbId) (w : World), ((fireCbs env p w cbs).1).current = w.current := by
  intro cbs
  induction cbs with
  | nil => intro w; rfl
  | cons cb rest ih =>
    intro w
    show ((fireCbs env p (runRegs (env cb) w) rest).1).current = w.current
    rw [ih, runRegs_current]

lemma fireSite_current (env : CbEnv) (p : LPoint) (w : World)
    (f : Option (List CbId)) : ((fireSite env p w f).1).current = w.current := by
  cases f with
  | none => rfl
  | some cbs => exact fireCbs_current env p cbs w

lemma updateInst_current (w : World) (idx : Nat) (f : Inst → Inst) :
    (updateInst w idx f).current = w.current := by
  unfold updateInst
  cases w.insts.get? idx <;> rfl

/-! no-current no-op lemmas. -/

lemma registerLifecycle_none (p : LPoint) (cb : CbId) (w : World)
    (h : w.current = none) : registerLifecycle p cb w = w := by
  unfold registerLifecycle
  rw [h]

lemma runRegs_none (acts : List (LPoint × CbId)) :
    ∀ w : World, w.current = none → runRegs acts w = w := by
  induction acts with
  | nil => intro w _; rfl
  | cons a rest ih =>
    intro w h
    rw [runRegs, registerLifecycle_none _ _ _ h, ih w h]

lemma fireCbs_none (env : CbEnv) (p : LPoint) :
    ∀ (cbs : List CbId) (w : World), w.current = none →
      fireCbs env p w cbs = (w, cbs.map (Ev.call p)) := by
  intro cbs
  induction cbs with
  | nil => intro w _; rfl
  | cons cb rest ih =>
    intro w h
    show (let r := fireCbs env p (runRegs (env cb) w) rest; (r.1, Ev.call p cb :: r.2))
      = (w, (cb :: rest).map (Ev.call p))
    rw [runRegs_none _ _ h, ih w h]
    rfl

lemma fireCbs_snd (env : CbEnv) (p : LPoint) :
    ∀ (cbs : List CbId) (w : World),
      (fireCbs env p w cbs).2 = cbs.map (Ev.call p) := by
  intro cbs
  induction cbs with
  | nil => intro w; rfl
  | cons cb rest ih =>
    intro w
    show Ev.call p cb :: (fireCbs env p (runRegs (env cb) w) rest).2 = _
    rw [ih]
    rfl

lemma fireSite_snd (env : CbEnv) (p : LPoint) (w : World)
    (f : Option (List CbId)) :
    (fireSite env p w f).2 = (f.getD []).map (Ev.call p) := by
  cases f with
  | none => rfl
  | some cbs => exact fireCbs_snd env p cbs w

lemma fireSite_none_world (env : CbEnv) (p : LPoint) (w : World)
    (f : Option (List CbId)) (h : w.current = none) :
    (fireSite env p w f).1 = w := by
  cases f with
  | none => rfl
  | some cbs =>
    show (fireCbs env p w cbs).1 = w
    rw [fireCbs_none env p cbs w h]

/-! Evaluation lemmas: what each operation does when the addressed instance
exists. -/

lemma set_of_get? {α : Type} :
    ∀ (l : List α) (i : Nat) (a : α), l.get? i = some a → l.set i a = l := by
  intro l
  induction l with
  | nil => intro i a h; cases h
  | cons x xs ih =>
    intro i a h
    cases i with
    | zero =>
      simp only [List.get?] at h
      injection h with h
      simp [h]
    | succ j =>
      simp only [List.get?] at h
      simp [ih j a h]

lemma registerLifecycle_some (p : LPoint) (cb : CbId) (w : World) (idx : Nat)
    (inst : Inst) (h1 : w.current = some idx) (h2 : w.insts.get? idx = some inst) :
    registerLifecycle p cb w
      = { w with insts := w.insts.set idx (applyAct inst p cb) } := by
  simp only [registerLifecycle, h1, h2]
  rfl

lemma runRegs_eq (acts : List (LPoint × CbId)) :
    ∀ (w : World) (idx : Nat) (inst : Inst),
      w.current = some idx → w.insts.get? idx = some inst →
      runRegs acts w = { w with insts := w.insts.set idx (applyActs acts inst) } := by
  induction acts with
  | nil =>
    intro w idx inst h1 h2
    show w = { w with insts := w.insts.set idx inst }
    rw [set_of_get? w.insts idx inst h2]
  | cons a rest ih =>
    intro w idx inst h1 h2
    have hlt : idx < w.insts.length := (List.get?_eq_some.mp h2).1
    rw [runRegs, registerLifecycle_some a.1 a.2 w idx inst h1 h2]
    have h1' : ({ w with insts := w.insts.set idx (applyAct inst a.1 a.2) } : World).current
        = some idx := h1
    have h2' : ({ w with insts := w.insts.set idx (applyAct inst a.1 a.2) } : World).insts.get? idx
        = some (applyAct inst a.1 a.2) := by
      show (w.insts.set idx (applyAct inst a.1 a.2)).get? idx = _
      rw [List.get?_set_eq_of_lt _ hlt]
    rw [ih _ idx _ h1' h2']
    show ({ w with
        insts := (w.insts.set idx (applyAct inst a.1 a.2)).set idx
          (applyActs rest (applyAct inst a.1 a.2)) } : World) = _
    rw [List.set_set]
    rfl

lemma updateInst_some (w : World) (idx : Nat) (f : Inst → Inst) (inst : Inst)
    (h : w.insts.get? idx = some inst) :
    updateInst w idx f = { w with insts := w.insts.set idx (f inst) } := by
  simp only [updateInst, h]

lemma effectRun_unmounted (env : CbEnv) (idx : Nat) (rb : RenderBody) (w : World)
    (inst : Inst) (hc : w.current = none) (hg : w.insts.get? idx = some inst)
    (hm : inst.isMounted = false) :
    effectRun env idx rb w =
      ({ w with insts := (w.insts.set idx
          { inst with
              deps := (rb (fun k => lookupKV inst._props k)).1,
              isMounted := true }) },
       (getFieldD inst LPoint.bu).map (Ev.call LPoint.bu) ++ [Ev.render]) := by
  have hlt : idx < w.insts.length := (List.get?_eq_some.mp hg).1
  have hfsw : (fireSite env LPoint.bu w (getField inst LPoint.bu)).1 = w :=
    fireSite_none_world env LPoint.bu w _ hc
  have hfss : (fireSite env LPoint.bu w (getField inst LPoint.bu)).2
      = (getFieldD inst LPoint.bu).map (Ev.call LPoint.bu) :=
    fireSite_snd env LPoint.bu w _
  have hup : updateInst w idx
      (fun i => { i with deps := (rb (fun k => lookupKV inst._props k)).1 })
      = { w with insts := (w.insts.set idx
          { inst with deps := (rb (fun k => lookupKV inst._props k)).1 }) } :=
    updateInst_some w idx _ inst hg
  have hrr : runRegs (rb (fun k => lookupKV inst._props k)).2
      { w with insts := (w.insts.set idx
          { inst with deps := (rb (fun k => lookupKV inst._props k)).1 }) }
      = { w with insts := (w.insts.set idx
          { inst with deps := (rb (fun k => lookupKV inst._props k)).1 }) } :=
    runRegs_none _ _ hc
  have hg2 : ({ w with insts := (w.insts.set idx
      { inst with deps := (rb (fun k => lookupKV inst._props k)).1 }) } : World).insts.get? idx
      = some { inst with deps := (rb (fun k => lookupKV inst._props k)).1 } := by
    show (w.insts.set idx _).get? idx = _
    rw [List.get?_set_eq_of_lt _ hlt]
  simp only [hm] at hup hrr hg2
  simp only [effectRun, hg, hm, if_pos, Bool.false_eq_true, if_false, hfsw, hfss, hg,
    Option.getD_some, hup, hrr]
  rw [updateInst_some _ idx _ _ hg2]
  rw [List.set_set]

lemma effectRun_mounted (env : CbEnv) (idx : Nat) (rb : RenderBody) (w : World)
    (inst : Inst) (hc : w.current = none) (hg : w.insts.get? idx = some inst)
    (hm : inst.isMounted = true) :
    effectRun env idx rb w =
      ({ w with insts := (w.insts.set idx
          { inst with deps := (rb (fun k => lookupKV inst._props k)).1 }) },
       Ev.render :: (getFieldD inst LPoint.u).map (Ev.call LPoint.u)) := by
  have hlt : idx < w.insts.length := (List.get?_eq_some.mp hg).1
  have hup : updateInst w idx
      (fun i => { i with deps := (rb (fun k => lookupKV inst._props k)).1 })
      = { w with insts := (w.insts.set idx
          { inst with deps := (rb (fun k => lookupKV inst._props k)).1 }) } :=
    updateInst_some w idx _ inst hg
  have hrr : runRegs (rb (fun k => lookupKV inst._props k)).2
      { w with insts := (w.insts.set idx
          { inst with deps := (rb (fun k => lookupKV inst._props k)).1 }) }
      = { w with insts := (w.insts.set idx
          { inst with deps := (rb (fun k => lookupKV inst._props k)).1 }) } :=
    runRegs_none _ _ hc
  have hg2 : ({ w with insts := (w.insts.set idx
      { inst with deps := (rb (fun k => lookupKV inst._props k)).1 }) } : World).insts.get? idx
      = some { inst with deps := (rb (fun k => lookupKV inst._props k)).1 } := by
    show (w.insts.set idx _).get? idx = _
    rw [List.get?_set_eq_of_lt _ hlt]
  have hfsw : (fireSite env LPoint.u
      { w with insts := (w.insts.set idx
          { inst with deps := (rb (fun k => lookupKV inst._props k)).1 }) }
      (getField { inst with deps := (rb (fun k => lookupKV inst._props k)).1 } LPoint.u)).1
      = { w with insts := (w.insts.set idx
          { inst with deps := (rb (fun k => lookupKV inst._props k)).1 }) } :=
    fireSite_none_world env LPoint.u _ _ hc
  have hfss : (fireSite env LPoint.u
      { w with insts := (w.insts.set idx
          { inst with deps := (rb (fun k => lookupKV inst._props k)).1 }) }
      (getField { inst with deps := (rb (fun k => lookupKV inst._props k)).1 } LPoint.u)).2
      = (getFieldD { inst with deps := (rb (fun k => lookupKV inst._props k)).1 } LPoint.u).map
          (Ev.call LPoint.u) :=
    fireSite_snd env LPoint.u _ _
  simp only [hm] at hup hrr hg2 hfsw hfss
  simp only [effectRun, hg, hm, Bool.true_eq_false, if_false, if_pos, hg, Option.getD_some,
    hup, hrr, hg2, hfsw, hfss]
  rfl

lemma factoryPhase_eq (fac : Factory) (w : World) :
    factoryPhase fac w =
      { current := some w.insts.length,
        insts := ((w.insts ++ [freshInst]).set w.insts.length
          (applyActs fac.acts freshInst)) } := by
  unfold factoryPhase
  apply runRegs_eq
  · rfl
  · show (w.insts ++ [freshInst]).get? w.insts.length = some freshInst
    exact List.get?_concat_length _ _

lemma construct_normal (env : CbEnv) (fac : Factory) (rb : RenderBody) (w : World)
    (h : fac.result = some rb) :
    construct env fac w =
      ({ current := none,
         insts := ((w.insts ++ [freshInst]).set w.insts.length
           { applyActs fac.acts freshInst with
               deps := (rb (fun k =>
                 lookupKV (applyActs fac.acts freshInst)._props k)).1,
               isMounted := true }) },
       some ((groupActs fac.acts LPoint.bm).map (Ev.call LPoint.bm) ++
             ((groupActs fac.acts LPoint.bu).map (Ev.call LPoint.bu) ++ [Ev.render]))) := by
  have hlen : w.insts.length < (w.insts ++ [freshInst]).length := by simp
  have hgS : ((w.insts ++ [freshInst]).set w.insts.length
      (applyActs fac.acts freshInst)).get? w.insts.length
      = some (applyActs fac.acts freshInst) :=
    List.get?_set_eq_of_lt _ hlen
  have hA : (applyActs fac.acts freshInst).isMounted = false := by
    rw [applyActs_isMounted]
    rfl
  have hbmD : getFieldD (applyActs fac.acts freshInst) LPoint.bm
      = groupActs fac.acts LPoint.bm := by
    rw [getFieldD_applyActs, getFieldD_freshInst, List.nil_append]
  have hbuD : getFieldD (applyActs fac.acts freshInst) LPoint.bu
      = groupActs fac.acts LPoint.bu := by
    rw [getFieldD_applyActs, getFieldD_freshInst, List.nil_append]
  have hbm1 : (fireSite env LPoint.bm
      { current := none,
        insts := ((w.insts ++ [freshInst]).set w.insts.length
          (applyActs fac.acts freshInst)) }
      (getField (applyActs fac.acts freshInst) LPoint.bm)).1
      = { current := none,
          insts := ((w.insts ++ [freshInst]).set w.insts.length
            (applyActs fac.acts freshInst)) } :=
    fireSite_none_world env LPoint.bm _ _ rfl
  have hbm2 : (fireSite env LPoint.bm
      { current := none,
        insts := ((w.insts ++ [freshInst]).set w.insts.length
          (applyActs fac.acts freshInst)) }
      (getField (applyActs fac.acts freshInst) LPoint.bm)).2
      = (groupActs fac.acts LPoint.bm).map (Ev.call LPoint.bm) := by
    rw [fireSite_snd]
    rw [show (getField (applyActs fac.acts freshInst) LPoint.bm).getD []
      = getFieldD (applyActs fac.acts freshInst) LPoint.bm from rfl]
    rw [hbmD]
  have heff : effectRun env w.insts.length rb
      { current := none,
        insts := ((w.insts ++ [freshInst]).set w.insts.length
          (applyActs fac.acts freshInst)) }
      = ({ current := none,
           insts := ((w.insts ++ [freshInst]).set w.insts.length
             { applyActs fac.acts freshInst with
                 deps := (rb (fun k =>
                   lookupKV (applyActs fac.acts freshInst)._props k)).1,
                 isMounted := true }) },
         (groupActs fac.acts LPoint.bu).map (Ev.call LPoint.bu) ++ [Ev.render]) := by
    rw [effectRun_unmounted env w.insts.length rb _ (applyActs fac.acts freshInst) rfl hgS hA]
    rw [List.set_set, hbuD]
  simp only [construct, h, factoryPhase_eq, hgS, Option.getD_some, hbm1, hbm2, heff]

lemma attributeChanged_insts (env : CbEnv) (idx : Nat) (rb : RenderBody)
    (name : Key) (ov nv : Value) (w : World) (inst : Inst)
    (hc : w.current = none) (hg : w.insts.get? idx = some inst) :
    ∃ instF : Inst, (attributeChanged env idx rb name ov nv w).1.insts
        = w.insts.set idx instF ∧ instF._props = insertKV inst._props name nv := by
  have hlt : idx < w.insts.length := (List.get?_eq_some.mp hg).1
  have hup : updateInst w idx (fun i => { i with _props := insertKV i._props name nv })
      = { w with insts := (w.insts.set idx
          { inst with _props := insertKV inst._props name nv }) } :=
    updateInst_some w idx _ inst hg
  have hg1 : ({ w with insts := (w.insts.set idx
      { inst with _props := insertKV inst._props name nv }) } : World).insts.get? idx
      = some { inst with _props := insertKV inst._props name nv } := by
    show (w.insts.set idx _).get? idx = _
    exact List.get?_set_eq_of_lt _ hlt
  by_cases hd : name ∈ inst.deps
  · cases hm : inst.isMounted with
    | false =>
      refine ⟨{ inst with
          _props := insertKV inst._props name nv,
          deps := (rb (fun k => lookupKV (insertKV inst._props name nv) k)).1,
          isMounted := true }, ?_, rfl⟩
      simp only [attributeChanged, hg]
      rw [if_pos hd, hup,
        effectRun_unmounted env idx rb
          { w with insts := (w.insts.set idx
            { inst with _props := insertKV inst._props name nv }) }
          { inst with _props := insertKV inst._props name nv } hc hg1 hm]
      show (w.insts.set idx _).set idx _ = _
      rw [List.set_set]
    | true =>
      refine ⟨{ inst with
          _props := insertKV inst._props name nv,
          deps := (rb (fun k => lookupKV (insertKV inst._props name nv) k)).1 }, ?_, rfl⟩
      simp only [attributeChanged, hg]
      rw [if_pos hd, hup,
        effectRun_mounted env idx rb
          { w with insts := (w.insts.set idx
            { inst with _props := insertKV inst._props name nv }) }
          { inst with _props := insertKV inst._props name nv } hc hg1 hm]
      show (w.insts.set idx _).set idx _ = _
      rw [List.set_set]
  · refine ⟨{ inst with _props := insertKV inst._props name nv }, ?_, rfl⟩
    simp only [attributeChanged, hg]
    rw [if_neg hd, hup]

lemma attributeChanged_trace_mounted (env : CbEnv) (idx : Nat) (rb : RenderBody)
    (name : Key) (ov nv : Value) (w : World) (inst : Inst)
    (hc : w.current = none) (hg : w.insts.get? idx = some inst)
    (hm : inst.isMounted = true) (hd : name ∈ inst.deps) :
    (attributeChanged env idx rb name ov nv w).2
      = Ev.render :: (getFieldD inst LPoint.u).map (Ev.call LPoint.u) := by
  have hlt : idx < w.insts.length := (List.get?_eq_some.mp hg).1
  have hup : updateInst w idx (fun i => { i with _props := insertKV i._props name nv })
      = { w with insts := (w.insts.set idx
          { inst with _props := insertKV inst._props name nv }) } :=
    updateInst_some w idx _ inst hg
  have hg1 : ({ w with insts := (w.insts.set idx
      { inst with _props := insertKV inst._props name nv }) } : World).insts.get? idx
      = some { inst with _props := insertKV inst._props name nv } := by
    show (w.insts.set idx _).get? idx = _
    exact List.get?_set_eq_of_lt _ hlt
  simp only [attributeChanged, hg]
  rw [if_pos hd, hup, effectRun_mounted env idx rb
    { w with insts := (w.insts.set idx
      { inst with _props := insertKV inst._props name nv }) }
    { inst with _props := insertKV inst._props name nv } hc hg1 hm]
  rfl

lemma attributeChanged_trace_empty (env : CbEnv) (idx : Nat) (rb : RenderBody)
    (name : Key) (ov nv : Value) (w : World) (inst : Inst)
    (hg : w.insts.get? idx = some inst) (hd : name ∉ inst.deps) :
    (attributeChanged env idx rb name ov nv w).2 = [] := by
  simp only [attributeChanged, hg]
  rw [if_neg hd]

/-! Concrete inputs used by the counterexample and the witnesses of part 2. -/

/-- Callback environment in which no callback performs registrations. -/
def envEmpty : CbEnv := fun _ => []

/-- A render body that reads nothing and registers nothing. -/
def rbEmpty : RenderBody := fun _ => ([], [])

/-- A factory that registers nothing and then throws. -/
def facThrowing : Factory := { acts := [], result := none }

/-- A factory registering one beforeMount, one beforeUpdate and one updated
callback, then returning the trivial render body. -/
def fac0 : Factory :=
  { acts := [(LPoint.bm, 1), (LPoint.bu, 2), (LPoint.u, 3)], result := some rbEmpty }

/-- A factory that registers nothing and returns the trivial render body. -/
def facBare : Factory := { acts := [], result := some rbEmpty }

/-- The empty world: no construction in progress, no instance yet. -/
def w0 : World := { current := none, insts := [] }

/-- A world holding one fully idle instance, no construction in progress. -/
def wOne : World := { current := none, insts := [freshInst] }

/-- A world in the middle of constructing instance 0. -/
def wCur : World := { current := some 0, insts := [freshInst] }

/-- Counterexample for C1: with a throwing factory the constructor stops before
the pointer-clearing line, so currentInstance still points at the failed
instance afterwards - the claim that the pointer is cleared even when the
factory throws is false of this code. -/
theorem c1_counterexample :
    (construct envEmpty facThrowing w0).2 = none ∧
    (construct envEmpty facThrowing w0).1.current = some 0 := by
  constructor <;> rfl

/-- Claim C1 as amended: the pointer is cleared after a factory invocation that
returns normally; after a throwing factory invocation it is not cleared and
still names the instance that was under construction. -/
theorem c1_current_cleared (env : CbEnv) (fac : Factory) (w : World) :
    (construct env fac w).1.current =
      (match fac.result with
       | some _ => none
       | none => some w.insts.length) := by
  cases hr : fac.result with
  | none =>
    simp only [construct, hr, factoryPhase_eq]
  | some rb =>
    rw [construct_normal env fac rb w hr]

/-- Claim C2.  A fresh construction fires all beforeMount callbacks, then all
beforeUpdate callbacks, then the first render; updated callbacks never fire
during the first run; a rerun triggered by a write to a tracked key renders
first and then fires the updated callbacks, and beforeUpdate callbacks never
fire on such a rerun. -/
theorem c2_lifecycle_order (env : CbEnv) (fac : Factory) (rb : RenderBody)
    (w : World) (h : fac.result = some rb) :
    ((construct env fac w).2 =
      some ((groupActs fac.acts LPoint.bm).map (Ev.call LPoint.bm) ++
            (groupActs fac.acts LPoint.bu).map (Ev.call LPoint.bu) ++ [Ev.render])) ∧
    (∀ cb, Ev.call LPoint.u cb ∉ ((construct env fac w).2.getD [])) ∧
    (Option.map Inst.isMounted
      ((construct env fac w).1.insts.get? w.insts.length) = some true) ∧
    (∀ (w2 : World) (idx : Nat) (inst2 : Inst) (name : Key) (ov nv : Value),
      w2.current = none → w2.insts.get? idx = some inst2 →
      inst2.isMounted = true → name ∈ inst2.deps →
      (attributeChanged env idx rb name ov nv w2).2
        = Ev.render :: (getFieldD inst2 LPoint.u).map (Ev.call LPoint.u)) ∧
    (∀ (w2 : World) (idx : Nat) (inst2 : Inst) (name : Key) (ov nv : Value) (cb : CbId),
      w2.current = none → w2.insts.get? idx = some inst2 → inst2.isMounted = true →
      Ev.call LPoint.bu cb ∉ (attributeChanged env idx rb name ov nv w2).2) := by
  have hlen : w.insts.length < (w.insts ++ [freshInst]).length := by simp
  refine ⟨?_, ?_, ?_, ?_, ?_⟩
  · rw [construct_normal env fac rb w h]
    simp [List.append_assoc]
  · rw [construct_normal env fac rb w h]
    intro cb
    simp [List.mem_append]
  · rw [construct_normal env fac rb w h]
    show Option.map Inst.isMounted (((w.insts ++ [freshInst]).set w.insts.length _).get?
      w.insts.length) = some true
    rw [List.get?_set_eq_of_lt _ hlen]
    rfl
  · intro w2 idx inst2 name ov nv hc hg hm hd
    exact attributeChanged_trace_mounted env idx rb name ov nv w2 inst2 hc hg hm hd
  · intro w2 idx inst2 name ov nv cb hc hg hm
    by_cases hd : name ∈ inst2.deps
    · rw [attributeChanged_trace_mounted env idx rb name ov nv w2 inst2 hc hg hm hd]
      simp
    · rw [attributeChanged_trace_empty env idx rb name ov nv w2 inst2 hg hd]
      simp

/-- Witness for C2 at concrete inputs. -/
theorem c2_lifecycle_order_witness :
    (construct envEmpty fac0 w0).2 =
      some ((groupActs fac0.acts LPoint.bm).map (Ev.call LPoint.bm) ++
            (groupActs fac0.acts LPoint.bu).map (Ev.call LPoint.bu) ++ [Ev.render]) :=
  (c2_lifecycle_order envEmpty fac0 rbEmpty w0 rfl).1

/-- Claim C5.  Calling a lifecycle registration function with no current instance
returns the world unchanged: no error, and no callback attached to any
instance, past or future. -/
theorem c5_noop_registration (w : World) (h : w.current = none)
    (p : LPoint) (cb : CbId) : registerLifecycle p cb w = w :=
  registerLifecycle_none p cb w h

/-- Witness for C5 at concrete inputs. -/
theorem c5_noop_registration_witness :
    w0.current = none ∧ registerLifecycle LPoint.m 4 w0 = w0 :=
  ⟨rfl, c5_noop_registration w0 rfl LPoint.m 4⟩

/-- Claim C6.  An attribute-change notification writes newValue verbatim under the
changed attribute name of that instance's props store, changes no other key
and no other instance's props, and its result does not depend on oldValue. -/
theorem c6_attribute_change (env : CbEnv) (idx : Nat) (rb : RenderBody)
    (name : Key) (ov1 ov2 nv : Value) (w : World) (inst : Inst)
    (hc : w.current = none) (hg : w.insts.get? idx = some inst) :
    propsAt (attributeChanged env idx rb name ov1 nv w).1 idx
      = some (insertKV inst._props name nv) ∧
    (∀ j, j ≠ idx →
      propsAt (attributeChanged env idx rb name ov1 nv w).1 j = propsAt w j) ∧
    lookupKV (insertKV inst._props name nv) name = some nv ∧
    (∀ k, k ≠ name →
      lookupKV (insertKV inst._props name nv) k = lookupKV inst._props k) ∧
    attributeChanged env idx rb name ov1 nv w
      = attributeChanged env idx rb name ov2 nv w := by
  have hlt : idx < w.insts.length := (List.get?_eq_some.mp hg).1
  obtain ⟨instF, hi, hp⟩ :=
    attributeChanged_insts env idx rb name ov1 nv w inst hc hg
  refine ⟨?_, ?_, ?_, ?_, rfl⟩
  · unfold propsAt
    rw [hi, List.get?_set_eq_of_lt _ hlt]
    simp [hp]
  · intro j hj
    unfold propsAt
    rw [hi, List.get?_set_ne _ _ (Ne.symm hj)]
  · exact lookupKV_insert_self inst._props name nv
  · intro k hk
    exact lookupKV_insert_ne inst._props name k nv hk

/-- Witness for C6 at concrete inputs. -/
theorem c6_attribute_change_witness :
    propsAt (attributeChanged envEmpty 0 rbEmpty "x" "o1" "n" wOne).1 0
      = some (insertKV freshInst._props "x" "n") :=
  (c6_attribute_change envEmpty 0 rbEmpty "x" "o1" "o2" "n" wOne freshInst rfl rfl).1

/-- Claim C7.  While an instance is current, every registration call appends the
callback to the end of that instance's sequence for the named point and
touches nothing else; sequences accept any number of callbacks across
multiple calls, and firing a sequence invokes its callbacks in exactly
insertion order. -/
theorem c7_registration_append (env : CbEnv) (w : World) (idx : Nat)
    (inst : Inst) (acts : List (LPoint × CbId)) (h1 : w.current = some idx)
    (h2 : w.insts.get? idx = some inst) :
    runRegs acts w = { w with insts := w.insts.set idx (applyActs acts inst) } ∧
    (∀ p, getFieldD (applyActs acts inst) p = getFieldD inst p ++ groupActs acts p) ∧
    (∀ (p : LPoint) (w2 : World),
      (fireCbs env p w2 (getFieldD (applyActs acts inst) p)).2
        = (getFieldD inst p ++ groupActs acts p).map (Ev.call p)) :=
  ⟨runRegs_eq acts w idx inst h1 h2,
   fun p => getFieldD_applyActs acts inst p,
   fun p w2 => by rw [fireCbs_snd, getFieldD_applyActs]⟩

/-- Witness for C7 at concrete inputs. -/
theorem c7_registration_append_witness :
    runRegs [(LPoint.bm, 5), (LPoint.bm, 6)] wCur
      = { wCur with insts :=
          wCur.insts.set 0 (applyActs [(LPoint.bm, 5), (LPoint.bm, 6)] freshInst) } :=
  (c7_registration_append envEmpty wCur 0 freshInst
    [(LPoint.bm, 5), (LPoint.bm, 6)] rfl rfl).1

/-- Claim C8.  defineComponent takes the attribute list as an optional second
argument: with a factory as second argument the observed attribute list is
empty and that factory is used; with three arguments the given list is used
verbatim together with the third-argument factory. -/
theorem c8_optional_propdefs :
    (∀ f : Factory, defineComponentArgs (Sum.inr f) none = ([], some f)) ∧
    (∀ (l : List String) (f : Factory),
      defineComponentArgs (Sum.inl l) (some f) = (l, some f)) :=
  ⟨fun _ => rfl, fun _ _ => rfl⟩

/-- Claim C9.  After a normally-returning factory the currentInstance pointer is
already empty for the beforeMount firing and the render effect, so lifecycle
registrations attempted from inside a beforeMount callback or the render body
are silent no-ops: the final world's lifecycle arrays, on every instance,
are exactly those left by the factory phase, and its pointer is empty. -/
theorem c9_registration_noop_after_factory (env : CbEnv) (fac : Factory)
    (rb : RenderBody) (w : World) (h : fac.result = some rb) :
    (construct env fac w).1.current = none ∧
    (∀ j, Option.map lifeFields ((construct env fac w).1.insts.get? j)
        = Option.map lifeFields ((factoryPhase fac w).insts.get? j)) ∧
    (∀ (w2 : World) (p : LPoint) (cb : CbId),
      w2.current = none → registerLifecycle p cb w2 = w2) := by
  have hlen : w.insts.length < (w.insts ++ [freshInst]).length := by simp
  refine ⟨?_, ?_, fun w2 p cb hc => registerLifecycle_none p cb w2 hc⟩
  · rw [construct_normal env fac rb w h]
  · intro j
    rw [construct_normal env fac rb w h, factoryPhase_eq]
    by_cases hj : j = w.insts.length
    · subst hj
      rw [List.get?_set_eq_of_lt _ hlen, List.get?_set_eq_of_lt _ hlen]
      rfl
    · rw [List.get?_set_ne _ _ (fun hh => hj hh.symm),
        List.get?_set_ne _ _ (fun hh => hj hh.symm)]

/-- Witness for C9 at concrete inputs. -/
theorem c9_registration_noop_after_factory_witness :
    (construct envEmpty fac0 w0).1.current = none :=
  (c9_registration_noop_after_factory envEmpty fac0 rbEmpty w0 rfl).1

/-- Claim C10.  Unallocated callback arrays are tolerated everywhere: a fire site
with an absent array fires nothing, and for a factory that registers no
callback, construction, the connected and disconnected transitions and
attribute-change reruns all complete while invoking no callback at all. -/
theorem c10_absent_lists (env : CbEnv) (rb : RenderBody) (w : World)
    (fac : Factory) (h1 : fac.acts = []) (h2 : fac.result = some rb) :
    (∀ (p : LPoint) (w2 : World), fireSite env p w2 none = (w2, [])) ∧
    (construct env fac w).2 = some [Ev.render] ∧
    connectedCallback env w.insts.length (construct env fac w).1
      = ((construct env fac w).1, []) ∧
    disconnectedCallback env w.insts.length (construct env fac w).1
      = ((construct env fac w).1, []) ∧
    (∀ (name : Key) (ov nv : Value) (p : LPoint) (cb : CbId),
      Ev.call p cb ∉
        (attributeChanged env w.insts.length rb name ov nv (construct env fac w).1).2) := by
  have hlen : w.insts.length < (w.insts ++ [freshInst]).length := by simp
  have hcn := construct_normal env fac rb w h2
  rw [h1] at hcn
  have hgY : ((construct env fac w).1).insts.get? w.insts.length
      = some { freshInst with
          deps := (rb (fun k => lookupKV (applyActs [] freshInst)._props k)).1,
          isMounted := true } := by
    rw [hcn]
    show ((w.insts ++ [freshInst]).set w.insts.length _).get? w.insts.length = _
    rw [List.get?_set_eq_of_lt _ hlen]
    rfl
  have hcur : ((construct env fac w).1).current = none := by rw [hcn]
  refine ⟨fun p w2 => rfl, ?_, ?_, ?_, ?_⟩
  · rw [hcn]
    simp [groupActs]
  · simp only [connectedCallback, hgY]
    rfl
  · simp only [disconnectedCallback, hgY]
    rfl
  · intro name ov nv p cb
    by_cases hd : name ∈ ({ freshInst with
        deps := (rb (fun k => lookupKV (applyActs [] freshInst)._props k)).1,
        isMounted := true } : Inst).deps
    · rw [attributeChanged_trace_mounted env w.insts.length rb name ov nv _ _
        hcur hgY rfl hd]
      simp [getFieldD, getField, freshInst]
    · rw [attributeChanged_trace_empty env w.insts.length rb name ov nv _ _ hgY hd]
      simp

/-- Witness for C10 at concrete inputs. -/
theorem c10_absent_lists_witness :
    (construct envEmpty facBare w0).2 = some [Ev.render] :=
  (c10_absent_lists envEmpty rbEmpty w0 facBare rfl rfl).2.1

end VueLit
